import Mathlib

/-!
Verification development for the trigram engine of the `gibberish-scorer`
repository (`src/src/trigram/TrigramMatrix.ts`, `src/src/index.ts`).

Characters are Lean `Char`s, texts are `List Char`, and scores are rationals
(`ℚ`), standing in for JavaScript's floating-point numbers.  The trigram
count table is represented as a function `ℕ → TrigramMatrixLayer`, each layer
holding a count function `ℕ → ℕ → ℕ` and a scalar `layerTotal`, mirroring the
dense arrays of the source (cells never written stay `0`, as the arrays are
zero-initialized).

The helper module `trigramHelpers.ts` and `utils/{helpers,constants}.ts` are
not part of the provided sources; the functions they export are modelled from
the specification (each such definition carries a doc comment saying so).
Everything in `TrigramMatrix.ts` and `index.ts` is translated directly.
-/

/-- Cutoff triple, from `CutoffScore` in `src/src/index.ts`: three numeric
decision thresholds below which text is classified gibberish. -/
structure CutoffScore where
  strict : ℚ
  avg : ℚ
  loose : ℚ
deriving DecidableEq, Repr

/-- Strictness selector, from the `CutoffScoreStrictness` enum in
`src/src/index.ts`. -/
inductive CutoffScoreStrictness where
  | Strict
  | Avg
  | Loose
deriving DecidableEq, Repr

/-- One layer of the trigram count table, from `TrigramMatrixLayer` in
`src/src/trigram/TrigramMatrix.ts`: an `alphaSize × alphaSize` count matrix
(indexed by the second and third characters of a trigram) plus the scalar
total of the layer. -/
structure TrigramMatrixLayer where
  countLayer : ℕ → ℕ → ℕ
  layerTotal : ℕ

/-- The full trigram count table: one layer per first-character index. -/
def TrigramCounts : Type := ℕ → TrigramMatrixLayer

/-- Modelled from the spec (§4.2, `createEmptyTrigramMatrix` of the missing
`trigramHelpers.ts`): a zero-initialized count table.  With the functional
representation every cell is `0` and every layer total is `0`; the size
argument of the source is kept for call-site fidelity. -/
def createEmptyTrigramMatrix (_alphaSize : ℕ) : TrigramCounts :=
  fun _ => { countLayer := fun _ _ => 0, layerTotal := 0 }

/-- Character-to-index map of a matrix instance: `some i` when the character
is in the alphabet (with dense index `i`), `none` otherwise. -/
def CharMap : Type := Char → Option ℕ

/-- Modelled from the spec (§4.3/§4.4 preprocessing): if `ignoreCase`, fold
the text to lower case before indexing, else leave it unchanged. -/
def cleanText (ignoreCase : Bool) (text : List Char) : List Char :=
  if ignoreCase then text.map Char.toLower else text

/-- All sliding windows of three consecutive characters of a text, in order. -/
def windows3 : List Char → List (Char × Char × Char)
  | c1 :: c2 :: c3 :: rest => (c1, c2, c3) :: windows3 (c2 :: c3 :: rest)
  | _ => []

/-- Map a character window through the alphabet index: `some (l, i, j)` when
all three characters are in the alphabet, `none` when any of them is not. -/
def mapTriple (cmap : CharMap) : Char × Char × Char → Option (ℕ × ℕ × ℕ)
  | (c1, c2, c3) =>
    match cmap c1, cmap c2, cmap c3 with
    | some l, some i, some j => some (l, i, j)
    | _, _, _ => none

/-- The index triples of the valid windows of a text: windows containing a
character absent from the alphabet are skipped, the scan sliding past them. -/
def validTriples (cmap : CharMap) (cs : List Char) : List (ℕ × ℕ × ℕ) :=
  (windows3 cs).filterMap (mapTriple cmap)

/-- Increment cell `(i, j)` of layer `l` by one, and that layer's total by
one, leaving every other layer unchanged. -/
def bumpTrigram (m : TrigramCounts) (l i j : ℕ) : TrigramCounts :=
  fun l' =>
    if l' = l then
      { countLayer := fun i' j' =>
          if i' = i ∧ j' = j then (m l).countLayer i' j' + 1
          else (m l).countLayer i' j'
        layerTotal := (m l).layerTotal + 1 }
    else m l'

/-- One step of the training scan: bump the counts for a valid window, do
nothing for a window containing an unmapped character. -/
def trainStep (cmap : CharMap) (m : TrigramCounts) (w : Char × Char × Char) :
    TrigramCounts :=
  match mapTriple cmap w with
  | some (l, i, j) => bumpTrigram m l i j
  | none => m

/-- Modelled from the spec (§4.3, `trainTrigramMatrix` of the missing
`trigramHelpers.ts`): case-fold if configured, then slide a window over
consecutive characters; each adjacent triple `(c1, c2, c3)` whose three
characters all map increments cell `(idx c2, idx c3)` of layer `idx c1` by
one and that layer's total by one; other windows are skipped.  The
`charsToInclude` argument of the source signature plays no role in the
spec's contract and is kept only for call-site fidelity. -/
def trainTrigramMatrix (m : TrigramCounts) (text : List Char) (cmap : CharMap)
    (_charsToInclude : List Char) (ignoreCase : Bool) : TrigramCounts :=
  (windows3 (cleanText ignoreCase text)).foldl (trainStep cmap) m

/-- Probability contributed by one valid window: `count / layerTotal`, or
zero when the layer total is zero (context never observed). -/
def windowProb (m : TrigramCounts) (t : ℕ × ℕ × ℕ) : ℚ :=
  if (m t.1).layerTotal = 0 then 0
  else ((m t.1).countLayer t.2.1 t.2.2 : ℚ) / ((m t.1).layerTotal : ℚ)

/-- One pass of the scoring loop over the raw windows: accumulates the sum of
the per-window probabilities of the valid windows and the number of valid
windows, skipping invalid windows. -/
def scoreLoop (m : TrigramCounts) (cmap : CharMap) :
    List (Char × Char × Char) → ℚ × ℕ
  | [] => (0, 0)
  | w :: rest =>
    let acc := scoreLoop m cmap rest
    match mapTriple cmap w with
    | some t => (acc.1 + windowProb m t, acc.2 + 1)
    | none => acc

/-- Modelled from the spec (§4.4, `runTextThroughTrigramMatrix` of the missing
`trigramHelpers.ts`): case-fold if configured, slide the same window as the
trainer, average the per-window probabilities of the valid windows, and
return zero when the text yields no valid window. -/
def runTextThroughTrigramMatrix (m : TrigramCounts) (text : List Char)
    (cmap : CharMap) (ignoreCase : Bool) : ℚ :=
  let acc := scoreLoop m cmap (windows3 (cleanText ignoreCase text))
  if acc.2 = 0 then 0 else acc.1 / (acc.2 : ℚ)

/-- Spec-side formulation of the score (§4.4's words): the arithmetic mean of
the per-window probabilities over the valid windows of the cleaned text,
defined as zero when there is no valid window.  Stated separately from the
loop `runTextThroughTrigramMatrix` so that the two can be compared. -/
def meanWindowScore (m : TrigramCounts) (text : List Char) (cmap : CharMap)
    (ignoreCase : Bool) : ℚ :=
  let ts := validTriples cmap (cleanText ignoreCase text)
  if ts = [] then 0 else (ts.map (windowProb m)).sum / (ts.length : ℚ)

/-- Average of the scores of a sample set (used by the calibrator). -/
def averageScore (m : TrigramCounts) (samples : List (List Char))
    (cmap : CharMap) (ignoreCase : Bool) : ℚ :=
  ((samples.map (fun s => runTextThroughTrigramMatrix m s cmap ignoreCase)).sum)
    / (samples.length : ℚ)

/-- Modelled from the spec (§4.5, `getTrigramCutoffScores` of the missing
`trigramHelpers.ts`): score every sample of both sets, set
`avg = (goodAvg + badAvg) / 2`, and derive the other two cutoffs by moving
half the distance from `avg` toward `goodAvg` (for `strict`) and toward
`badAvg` (for `loose`).  The direction — `strict` nearest `goodAvg`, hence
numerically largest under normal input — is fixed by the repository's own
README sample output (`src/unnamed/part_000`, `getCutoffScores` example:
`loose 0.0176 < avg 0.0257 < strict 0.0337`, symmetric spacing giving the
fraction `1/2`) and by the strictness semantics documented on the
`CutoffScoreStrictness` enum in `src/src/index.ts` (`Strict` labels more
queries gibberish, which under the `score < cutoff` test of `isGibberish`
requires the largest cutoff).  On an empty sample set the spec demands that
no empty-average division fault propagate; the previous cutoffs the spec
mentions are not available here (the call sites in `TrigramMatrix.ts` pass
none), so the model returns a fixed triple in that case. -/
def getTrigramCutoffScores (m : TrigramCounts) (goodSamples badSamples : List (List Char))
    (cmap : CharMap) (ignoreCase : Bool) : CutoffScore :=
  if goodSamples = [] ∨ badSamples = [] then { strict := 0, avg := 0, loose := 0 }
  else
    let goodAvg := averageScore m goodSamples cmap ignoreCase
    let badAvg := averageScore m badSamples cmap ignoreCase
    let avg := (goodAvg + badAvg) / 2
    { strict := (avg + goodAvg) / 2, avg := avg, loose := (avg + badAvg) / 2 }

/-- Modelled from the spec: the hard-coded default good-sample array
(`DEFAULT_GOOD_SAMPLES` of the missing `utils/constants.ts`).  The concrete
strings are external data excluded from the core; a fixed placeholder list
stands in for them. -/
def DEFAULT_GOOD_SAMPLES : List (List Char) :=
  [['t', 'h', 'e', ' ', 'c', 'a', 't'], ['a', ' ', 'd', 'o', 'g']]

/-- Modelled from the spec: the hard-coded default bad-sample array
(`DEFAULT_BAD_SAMPLES` of the missing `utils/constants.ts`), represented by a
fixed placeholder list. -/
def DEFAULT_BAD_SAMPLES : List (List Char) :=
  [['z', 'q', 'x', 'w'], ['v', 'k', 'j']]

/-- Modelled from the spec (README `src/unnamed/part_000`): the base alphabet,
lower-case letters `a`–`z` (code points 97–122) followed by the space. -/
def DEFAULT_CHARS_TO_INCLUDE : List Char :=
  (List.range 26).map (fun k => Char.ofNat (97 + k)) ++ [' ']

/-- Modelled from the spec: the upper-case letters `A`–`Z`, appended to the
inclusion set when `ignoreCase` is off. -/
def UPPERCASE_CHARS : List Char :=
  (List.range 26).map (fun k => Char.ofNat (65 + k))

/-- First-occurrence de-duplication of a character list. -/
def dedupChars (cs : List Char) : List Char :=
  cs.foldl (fun acc c => if c ∈ acc then acc else acc ++ [c]) []

/-- Modelled from the spec (§4.1, `getCharCodeMap` of the missing
`utils/helpers.ts`): map each included character to a dense index in
first-occurrence order, and return the map together with the count of unique
characters and the de-duplicated inclusion string. -/
def getCharCodeMap (cs : List Char) : CharMap × ℕ × List Char :=
  let d := dedupChars cs
  (fun c => d.findIdx? (fun x => x = c), d.length, d)

/-- Instance state of the `TrigramMatrix` class
(`src/src/trigram/TrigramMatrix.ts`, fields at lines 18–25). -/
structure TrigramMatrixState where
  alphaSize : ℕ
  charsToInclude : List Char
  trigramMatrix : TrigramCounts
  cutoffScores : CutoffScore
  charCodeMap : CharMap
  savedGoodSamples : List (List Char)
  savedBadSamples : List (List Char)
  ignoreCase : Bool

/-- The `recalibrateCutoffScores` method (`TrigramMatrix.ts:66-68`).  The two
parameters are optional in the source and default to the hard-coded sample
arrays, so they are received as `Option`s here; the stored cutoff triple is
unconditionally overwritten with the helper's result. -/
def recalibrateCutoffScores (s : TrigramMatrixState)
    (goodSamples badSamples : Option (List (List Char))) : TrigramMatrixState :=
  { s with
    cutoffScores :=
      getTrigramCutoffScores s.trigramMatrix
        (goodSamples.getD DEFAULT_GOOD_SAMPLES)
        (badSamples.getD DEFAULT_BAD_SAMPLES)
        s.charCodeMap s.ignoreCase }

/-- The `train` method (`TrigramMatrix.ts:53-56`): update the counts, then
recalibrate against the instance's saved good/bad sample sets. -/
def train (s : TrigramMatrixState) (trainingText : List Char) : TrigramMatrixState :=
  recalibrateCutoffScores
    { s with
      trigramMatrix :=
        trainTrigramMatrix s.trigramMatrix trainingText s.charCodeMap
          s.charsToInclude s.ignoreCase }
    (some s.savedGoodSamples) (some s.savedBadSamples)

/-- The `getScore` method (`TrigramMatrix.ts:58-60`). -/
def getScore (s : TrigramMatrixState) (textToScore : List Char) : ℚ :=
  runTextThroughTrigramMatrix s.trigramMatrix textToScore s.charCodeMap s.ignoreCase

/-- Cutoff selected by a strictness level, from the conditional at
`TrigramMatrix.ts:72`. -/
def selectCutoff (c : CutoffScore) : CutoffScoreStrictness → ℚ
  | .Strict => c.strict
  | .Avg => c.avg
  | .Loose => c.loose

/-- The `isGibberish` method (`TrigramMatrix.ts:70-74`): true exactly when
the score is strictly below the selected cutoff. -/
def isGibberish (s : TrigramMatrixState) (text : List Char)
    (strictness : CutoffScoreStrictness) : Bool :=
  decide (getScore s text < selectCutoff s.cutoffScores strictness)

/-- The options-path constructor (`TrigramMatrix.ts:40-50`): build the
alphabet map from the default inclusion set plus extras (plus upper case when
`ignoreCase` is off), train a fresh matrix on the initial corpus, calibrate
against the supplied samples, and save those samples on the instance.  The
initial training runs without case folding: the source's `this.train` call at
line 46 reads `this.ignoreCase` before that field is assigned at line 50, so
the folding flag is `undefined` (falsy) during initial training.  The
intermediate recalibration that `this.train` triggers is overwritten by the
assignment at line 47 and is therefore not modelled. -/
def constructTrigramMatrix (initialTrainingText : List Char)
    (goodSamples badSamples : List (List Char)) (ignoreCase : Bool)
    (additionalCharsToInclude : List Char) : TrigramMatrixState :=
  let chars := DEFAULT_CHARS_TO_INCLUDE ++ additionalCharsToInclude ++
    (if ignoreCase then [] else UPPERCASE_CHARS)
  let built := getCharCodeMap chars
  let m1 := trainTrigramMatrix (createEmptyTrigramMatrix built.2.1)
    initialTrainingText built.1 built.2.2 false
  { alphaSize := built.2.1
    charsToInclude := built.2.2
    trigramMatrix := m1
    cutoffScores := getTrigramCutoffScores m1 goodSamples badSamples built.1 ignoreCase
    charCodeMap := built.1
    savedGoodSamples := goodSamples
    savedBadSamples := badSamples
    ignoreCase := ignoreCase }

/-- Mutating operations available on an instance after construction. -/
inductive MatrixOp where
  | trainOp (text : List Char)
  | recalibrateOp (goodSamples badSamples : List (List Char))

/-- Apply one mutating operation to an instance state. -/
def applyOp (s : TrigramMatrixState) : MatrixOp → TrigramMatrixState
  | .trainOp text => train s text
  | .recalibrateOp g b => recalibrateCutoffScores s (some g) (some b)

/-- Run a sequence of mutating operations from a state. -/
def runOps (s : TrigramMatrixState) (ops : List MatrixOp) : TrigramMatrixState :=
  ops.foldl applyOp s

/-- The good/bad sample sets most recently supplied to a recalibration
operation in a trace, or the given pair when the trace contains none. -/
def lastSupplied (g0 b0 : List (List Char)) (ops : List MatrixOp) :
    List (List Char) × List (List Char) :=
  ops.foldl
    (fun acc op =>
      match op with
      | .recalibrateOp g b => (g, b)
      | .trainOp _ => acc)
    (g0, b0)

/-- Well-formedness of a matrix used for scoring: no cell exceeds its layer's
total.  Every matrix reachable by training from an empty table satisfies it
(see `cellBounded_trained` below). -/
def CellBounded (m : TrigramCounts) : Prop :=
  ∀ l i j, (m l).countLayer i j ≤ (m l).layerTotal

/-- The layer-total invariant of the data model: each layer's total equals
the sum of the cells of its `n × n` count matrix. -/
def LayerInvariant (n : ℕ) (m : TrigramCounts) : Prop :=
  ∀ l, (m l).layerTotal =
    ∑ i ∈ Finset.range n, ∑ j ∈ Finset.range n, (m l).countLayer i j

/-- Number of triples of a list that land in layer `l`. -/
def layerHits (l : ℕ) (ts : List (ℕ × ℕ × ℕ)) : ℕ :=
  ts.countP (fun t => decide (t.1 = l))

/-- One word token paired with its score, the element shape of the
`words`/`gibberishWords` arrays of `getWordByWordAnalysis`. -/
structure WordScore where
  word : List Char
  score : ℚ
deriving DecidableEq, Repr

/-- Result record of `getWordByWordAnalysis`
(`src/src/trigram/TrigramMatrix.ts:79-85`). -/
structure WordAnalysis where
  numWords : ℕ
  numGibberishWords : ℕ
  words : List WordScore
  gibberishWords : List WordScore
  cutoffs : CutoffScore

/-- Split a character list into words: the accumulator collects the current
word in reverse, a space closes it.  Helper for the modelled tokenizer. -/
def splitWordsAux : List Char → List Char → List (List Char)
  | [], acc => if acc = [] then [] else [acc.reverse]
  | c :: rest, acc =>
    if c = ' ' then
      if acc = [] then splitWordsAux rest []
      else acc.reverse :: splitWordsAux rest []
    else splitWordsAux rest (c :: acc)

/-- Modelled from the spec (§6, `cleanAndExtractWordsFromTextToScore` of the
missing `utils/helpers.ts`): an external pure tokenizer producing the word
tokens of a free text, stripping whitespace boundaries, after the usual case
folding. -/
def cleanAndExtractWordsFromTextToScore (text : List Char) (ignoreCase : Bool) :
    List (List Char) :=
  splitWordsAux (cleanText ignoreCase text) []

/-- The body of the `for` loop of `getWordByWordAnalysis`
(`TrigramMatrix.ts:89-93`), processed by recursion over the token list:
every token is bundled with its score and appended to `words`, and
additionally to `gibberishWords` when classified gibberish. -/
def wordLoop (s : TrigramMatrixState) (strictness : CutoffScoreStrictness) :
    List (List Char) → List WordScore × List WordScore
  | [] => ([], [])
  | w :: rest =>
    let bundle : WordScore := { word := w, score := getScore s w }
    let acc := wordLoop s strictness rest
    (bundle :: acc.1,
      if isGibberish s w strictness then bundle :: acc.2 else acc.2)

/-- The `getWordByWordAnalysis` method (`TrigramMatrix.ts:76-95`).  The
strictness parameter is optional in the source; an omitted value falls to
`Avg` through the default parameter of `isGibberish` (line 70). -/
def getWordByWordAnalysis (s : TrigramMatrixState) (text : List Char)
    (strictness : Option CutoffScoreStrictness) : WordAnalysis :=
  let wordTokens := cleanAndExtractWordsFromTextToScore text s.ignoreCase
  let acc := wordLoop s (strictness.getD CutoffScoreStrictness.Avg) wordTokens
  { numWords := wordTokens.length
    numGibberishWords := acc.2.length
    words := acc.1
    gibberishWords := acc.2
    cutoffs := s.cutoffScores }

/-- Concrete three-letter alphabet map used by the concrete instances below:
`a ↦ 0`, `b ↦ 1`, `c ↦ 2`. -/
def cmapABC : CharMap := fun c =>
  if c = 'a' then some 0
  else if c = 'b' then some 1
  else if c = 'c' then some 2
  else none

/-- Concrete matrix: the empty three-letter table trained once on `"abc"`,
so layer `0` has a single count in cell `(1, 2)` and total `1`. -/
def mEx : TrigramCounts :=
  trainTrigramMatrix (createEmptyTrigramMatrix 3) ['a', 'b', 'c'] cmapABC [] true

/-- Concrete instance state around `mEx`, with stored cutoffs `⟨1, 1, 1⟩`. -/
def sEx : TrigramMatrixState :=
  { alphaSize := 3
    charsToInclude := ['a', 'b', 'c']
    trigramMatrix := mEx
    cutoffScores := { strict := 1, avg := 1, loose := 1 }
    charCodeMap := cmapABC
    savedGoodSamples := [['a', 'b', 'c']]
    savedBadSamples := [['c', 'b', 'a']]
    ignoreCase := true }

/-- Concrete instance state with an empty matrix and all-zero cutoffs. -/
def sZero : TrigramMatrixState :=
  { alphaSize := 3
    charsToInclude := ['a', 'b', 'c']
    trigramMatrix := createEmptyTrigramMatrix 3
    cutoffScores := { strict := 0, avg := 0, loose := 0 }
    charCodeMap := cmapABC
    savedGoodSamples := []
    savedBadSamples := []
    ignoreCase := true }

/-- Concrete instance built through the options-path constructor: initial
corpus `"abc"`, good samples `["abc"]`, bad samples `["ba"]`. -/
def sCon : TrigramMatrixState :=
  constructTrigramMatrix ['a', 'b', 'c'] [['a', 'b', 'c']] [['b', 'a']] true []

/-- `sCon` after supplying swapped sample sets to `recalibrateCutoffScores`. -/
def sRe : TrigramMatrixState :=
  applyOp sCon (MatrixOp.recalibrateOp [['b', 'a']] [['a', 'b', 'c']])

/-- `sRe` after one further `train` call on `"abc"`. -/
def sTr : TrigramMatrixState :=
  applyOp sRe (MatrixOp.trainOp ['a', 'b', 'c'])

lemma cleanText_append (ic : Bool) (A B : List Char) :
    cleanText ic (A ++ B) = cleanText ic A ++ cleanText ic B := by
  cases ic <;> simp [cleanText]

lemma cleanText_nil (ic : Bool) : cleanText ic [] = [] := by
  cases ic <;> simp [cleanText]

lemma windows3_short (cs : List Char) (h : cs.length ≤ 2) : windows3 cs = [] := by
  match cs with
  | [] => rfl
  | [_] => rfl
  | [_, _] => rfl
  | _ :: _ :: _ :: _ => simp at h

lemma windows3_cons2 (a : Char) (Y : List Char) :
    windows3 (a :: Y) = windows3 (a :: Y.take 2) ++ windows3 Y := by
  match Y with
  | [] => rfl
  | [y] => rfl
  | y1 :: y2 :: r => simp [windows3, List.take]

lemma windows3_cons3 (a b : Char) (Y : List Char) :
    windows3 (a :: b :: Y) = windows3 (a :: b :: Y.take 2) ++ windows3 Y := by
  match Y with
  | [] => rfl
  | [y] => rfl
  | y1 :: y2 :: r => simp [windows3, List.take]

lemma windows3_append (X Y : List Char) :
    windows3 (X ++ Y) =
      windows3 X ++ windows3 (X.drop (X.length - 2) ++ Y.take 2) ++ windows3 Y := by
  induction X with
  | nil =>
    simp [windows3, windows3_short (Y.take 2) (by simp)]
  | cons a X ih =>
    match X with
    | [] => simpa [windows3] using windows3_cons2 a Y
    | [b] => simpa [windows3] using windows3_cons3 a b Y
    | b :: c :: t =>
      have harith : (a :: b :: c :: t).length - 2 = t.length + 1 := by
        simp
      have harith2 : (b :: c :: t).length - 2 = t.length := by simp
      calc windows3 ((a :: b :: c :: t) ++ Y)
          = (a, b, c) :: windows3 ((b :: c :: t) ++ Y) := by simp [windows3]
        _ = (a, b, c) :: (windows3 (b :: c :: t) ++
              windows3 ((b :: c :: t).drop ((b :: c :: t).length - 2) ++ Y.take 2) ++
              windows3 Y) := by rw [ih]
        _ = windows3 (a :: b :: c :: t) ++
              windows3 ((a :: b :: c :: t).drop ((a :: b :: c :: t).length - 2) ++ Y.take 2) ++
              windows3 Y := by
            simp [windows3, harith, harith2, List.drop]

lemma foldl_trainStep_count (cmap : CharMap) (ws : List (Char × Char × Char)) :
    ∀ (m : TrigramCounts) (l i j : ℕ),
      ((ws.foldl (trainStep cmap) m) l).countLayer i j =
        (m l).countLayer i j + (ws.filterMap (mapTriple cmap)).count (l, i, j) := by
  induction ws with
  | nil => intro m l i j; simp
  | cons w ws ih =>
    intro m l i j
    rw [List.foldl_cons, ih, List.filterMap_cons]
    cases h : mapTriple cmap w with
    | none => simp [trainStep, h]
    | some t =>
      obtain ⟨l', i', j'⟩ := t
      simp only [trainStep, h, List.count_cons]
      by_cases hl : l = l' <;>
        by_cases hij : i = i' ∧ j = j' <;>
          simp [bumpTrigram, hl, hij, Prod.ext_iff] <;> omega

lemma foldl_trainStep_total (cmap : CharMap) (ws : List (Char × Char × Char)) :
    ∀ (m : TrigramCounts) (l : ℕ),
      ((ws.foldl (trainStep cmap) m) l).layerTotal =
        (m l).layerTotal + layerHits l (ws.filterMap (mapTriple cmap)) := by
  induction ws with
  | nil => intro m l; simp [layerHits]
  | cons w ws ih =>
    intro m l
    rw [List.foldl_cons, ih, List.filterMap_cons]
    cases h : mapTriple cmap w with
    | none => simp [trainStep, h]
    | some t =>
      obtain ⟨l', i', j'⟩ := t
      simp only [trainStep, h, layerHits, List.countP_cons]
      by_cases hl : l = l' <;> simp [bumpTrigram, hl, layerHits] <;> omega

/-- Claim C6: each valid window of the cleaned text increments its cell and
its layer's total by exactly one (the cell receives one increment per
occurrence of its index triple among the valid windows), while a window
containing an unmapped character contributes nothing and leaves the matrix
untouched, the scan sliding past it. -/
theorem trainTrigramMatrix_window_spec (m : TrigramCounts) (text : List Char)
    (cmap : CharMap) (ctI : List Char) (ic : Bool) :
    (∀ l i j, ((trainTrigramMatrix m text cmap ctI ic) l).countLayer i j =
        (m l).countLayer i j + (validTriples cmap (cleanText ic text)).count (l, i, j)) ∧
    (∀ l, ((trainTrigramMatrix m text cmap ctI ic) l).layerTotal =
        (m l).layerTotal + layerHits l (validTriples cmap (cleanText ic text))) ∧
    (∀ w, mapTriple cmap w = none → trainStep cmap m w = m) :=
  ⟨fun l i j => foldl_trainStep_count cmap (windows3 (cleanText ic text)) m l i j,
   fun l => foldl_trainStep_total cmap (windows3 (cleanText ic text)) m l,
   fun _ h => by simp [trainStep, h]⟩

/-- Claim C8: training on `A` and then on `B` yields the same count table as
training once on `A ++ B`, except that the concatenation additionally counts
exactly the boundary windows straddling the seam (the valid windows of the
last two characters of cleaned `A` followed by the first two characters of
cleaned `B`); and repeated training accumulates onto the existing counts of
the starting matrix, never resetting them. -/
theorem train_append_seam (m : TrigramCounts) (A B : List Char) (cmap : CharMap)
    (ctI : List Char) (ic : Bool) :
    (∀ l i j,
      ((trainTrigramMatrix m (A ++ B) cmap ctI ic) l).countLayer i j =
        ((trainTrigramMatrix (trainTrigramMatrix m A cmap ctI ic) B cmap ctI ic) l).countLayer i j
          + (validTriples cmap ((cleanText ic A).drop ((cleanText ic A).length - 2)
              ++ (cleanText ic B).take 2)).count (l, i, j)) ∧
    (∀ l,
      ((trainTrigramMatrix m (A ++ B) cmap ctI ic) l).layerTotal =
        ((trainTrigramMatrix (trainTrigramMatrix m A cmap ctI ic) B cmap ctI ic) l).layerTotal
          + layerHits l (validTriples cmap ((cleanText ic A).drop ((cleanText ic A).length - 2)
              ++ (cleanText ic B).take 2))) ∧
    (∀ l i j,
      ((trainTrigramMatrix (trainTrigramMatrix m A cmap ctI ic) B cmap ctI ic) l).countLayer i j =
        (m l).countLayer i j + (validTriples cmap (cleanText ic A)).count (l, i, j)
          + (validTriples cmap (cleanText ic B)).count (l, i, j)) := by
  have hw : windows3 (cleanText ic (A ++ B)) =
      windows3 (cleanText ic A)
        ++ windows3 ((cleanText ic A).drop ((cleanText ic A).length - 2)
            ++ (cleanText ic B).take 2)
        ++ windows3 (cleanText ic B) := by
    rw [cleanText_append, windows3_append]
  refine ⟨fun l i j => ?_, fun l => ?_, fun l i j => ?_⟩ <;>
    simp only [trainTrigramMatrix, validTriples, hw, List.filterMap_append,
      List.count_append, layerHits, List.countP_append, foldl_trainStep_count,
      foldl_trainStep_total] <;> omega

lemma mapTriple_some_iff (cmap : CharMap) (c1 c2 c3 : Char) (l i j : ℕ)
    (h : mapTriple cmap (c1, c2, c3) = some (l, i, j)) :
    cmap c1 = some l ∧ cmap c2 = some i ∧ cmap c3 = some j := by
  cases h1 : cmap c1 <;> cases h2 : cmap c2 <;> cases h3 : cmap c3 <;>
    simp only [mapTriple, h1, h2, h3] at h <;> simp_all

lemma double_sum_bump (c : ℕ → ℕ → ℕ) (n i j : ℕ) (hi : i < n) (hj : j < n) :
    (∑ x ∈ Finset.range n, ∑ y ∈ Finset.range n,
        if x = i ∧ y = j then c x y + 1 else c x y) =
      (∑ x ∈ Finset.range n, ∑ y ∈ Finset.range n, c x y) + 1 := by
  have hpt : ∀ x y, (if x = i ∧ y = j then c x y + 1 else c x y)
      = c x y + (if x = i then 1 else 0) * (if y = j then 1 else 0) := by
    intro x y
    by_cases hx : x = i <;> by_cases hy : y = j <;> simp [hx, hy]
  have hx1 : (∑ x ∈ Finset.range n, if x = i then (1 : ℕ) else 0) = 1 := by
    rw [Finset.sum_ite_eq' (Finset.range n) i (fun _ => (1 : ℕ))]
    simp [Finset.mem_range.mpr hi]
  have hy1 : (∑ y ∈ Finset.range n, if y = j then (1 : ℕ) else 0) = 1 := by
    rw [Finset.sum_ite_eq' (Finset.range n) j (fun _ => (1 : ℕ))]
    simp [Finset.mem_range.mpr hj]
  have inner : ∀ x,
      (∑ y ∈ Finset.range n,
        (c x y + (if x = i then 1 else 0) * (if y = j then 1 else 0)))
      = (∑ y ∈ Finset.range n, c x y) + (if x = i then 1 else 0) := by
    intro x
    rw [Finset.sum_add_distrib, ← Finset.mul_sum, hy1, mul_one]
  simp only [hpt, inner, Finset.sum_add_distrib, hx1]

lemma trainStep_invariant (n : ℕ) (cmap : CharMap)
    (wf : ∀ c k, cmap c = some k → k < n) (m : TrigramCounts)
    (inv : LayerInvariant n m) (w : Char × Char × Char) :
    LayerInvariant n (trainStep cmap m w) := by
  intro l
  cases h : mapTriple cmap w with
  | none => simp [trainStep, h, inv l]
  | some t =>
    obtain ⟨l', i', j'⟩ := t
    obtain ⟨c1, c2, c3⟩ := w
    obtain ⟨h1, h2, h3⟩ := mapTriple_some_iff cmap c1 c2 c3 l' i' j' h
    have hi : i' < n := wf c2 i' h2
    have hj : j' < n := wf c3 j' h3
    by_cases hl : l = l'
    · subst hl
      simp only [trainStep, h, bumpTrigram, eq_self_iff_true, if_true]
      rw [double_sum_bump ((m l).countLayer) n i' j' hi hj, ← inv l]
    · simp only [trainStep, h, bumpTrigram, if_neg hl]
      exact inv l

lemma foldl_trainStep_invariant (n : ℕ) (cmap : CharMap)
    (wf : ∀ c k, cmap c = some k → k < n) (ws : List (Char × Char × Char)) :
    ∀ m, LayerInvariant n m → LayerInvariant n (ws.foldl (trainStep cmap) m) := by
  induction ws with
  | nil => intro m inv; exact inv
  | cons w ws ih =>
    intro m inv
    exact ih (trainStep cmap m w) (trainStep_invariant n cmap wf m inv w)

lemma foldl_texts_invariant (n : ℕ) (cmap : CharMap) (ctI : List Char) (ic : Bool)
    (wf : ∀ c k, cmap c = some k → k < n) (texts : List (List Char)) :
    ∀ m, LayerInvariant n m →
      LayerInvariant n (texts.foldl (fun acc t => trainTrigramMatrix acc t cmap ctI ic) m) := by
  induction texts with
  | nil => intro m inv; exact inv
  | cons t texts ih =>
    intro m inv
    exact ih (trainTrigramMatrix m t cmap ctI ic)
      (foldl_trainStep_invariant n cmap wf (windows3 (cleanText ic t)) m inv)

lemma empty_invariant (n : ℕ) : LayerInvariant n (createEmptyTrigramMatrix n) := by
  intro l
  simp [createEmptyTrigramMatrix]

/-- Claim C7: after any sequence of training calls starting from a freshly
created matrix, every count cell is a non-negative integer and each layer's
total equals the sum of the cells of that layer's count matrix. -/
theorem trained_counts_invariant (n : ℕ) (cmap : CharMap) (ctI : List Char)
    (ic : Bool) (texts : List (List Char))
    (wf : ∀ c k, cmap c = some k → k < n) :
    LayerInvariant n (texts.foldl (fun acc t => trainTrigramMatrix acc t cmap ctI ic)
      (createEmptyTrigramMatrix n)) ∧
    ∀ l i j, (0 : ℤ) ≤
      (((texts.foldl (fun acc t => trainTrigramMatrix acc t cmap ctI ic)
        (createEmptyTrigramMatrix n)) l).countLayer i j : ℤ) :=
  ⟨foldl_texts_invariant n cmap ctI ic wf texts (createEmptyTrigramMatrix n)
      (empty_invariant n),
   fun _ _ _ => Int.natCast_nonneg _⟩

lemma cmapABC_wf : ∀ c k, cmapABC c = some k → k < 3 := by
  intro c k h
  simp only [cmapABC] at h
  split_ifs at h <;> simp_all <;> omega

/-- Witness for C7 at the concrete three-letter alphabet and the single
training text `"abc"`. -/
theorem trained_counts_invariant_witness :
    (∀ c k, cmapABC c = some k → k < 3) ∧
    (LayerInvariant 3 ([['a', 'b', 'c']].foldl
        (fun acc t => trainTrigramMatrix acc t cmapABC [] true)
        (createEmptyTrigramMatrix 3)) ∧
      ∀ l i j, (0 : ℤ) ≤
        ((([['a', 'b', 'c']].foldl (fun acc t => trainTrigramMatrix acc t cmapABC [] true)
          (createEmptyTrigramMatrix 3)) l).countLayer i j : ℤ)) :=
  ⟨cmapABC_wf, trained_counts_invariant 3 cmapABC [] true [['a', 'b', 'c']] cmapABC_wf⟩

lemma count_le_layerHits (l i j : ℕ) (ts : List (ℕ × ℕ × ℕ)) :
    ts.count (l, i, j) ≤ layerHits l ts := by
  induction ts with
  | nil => simp [layerHits]
  | cons t ts ih =>
    simp only [layerHits, List.count_cons, List.countP_cons] at ih ⊢
    by_cases h : t = (l, i, j)
    · subst h
      simp
      omega
    · simp [h]
      omega

lemma cellBounded_train (m : TrigramCounts) (text : List Char) (cmap : CharMap)
    (ctI : List Char) (ic : Bool) (hb : CellBounded m) :
    CellBounded (trainTrigramMatrix m text cmap ctI ic) := by
  intro l i j
  simp only [trainTrigramMatrix, foldl_trainStep_count, foldl_trainStep_total]
  exact Nat.add_le_add (hb l i j) (count_le_layerHits l i j _)

lemma cellBounded_empty (n : ℕ) : CellBounded (createEmptyTrigramMatrix n) := by
  intro l i j
  simp [createEmptyTrigramMatrix]

lemma cellBounded_trained (n : ℕ) (cmap : CharMap) (ctI : List Char) (ic : Bool)
    (texts : List (List Char)) :
    CellBounded (texts.foldl (fun acc t => trainTrigramMatrix acc t cmap ctI ic)
      (createEmptyTrigramMatrix n)) := by
  have h : ∀ m, CellBounded m →
      CellBounded (texts.foldl (fun acc t => trainTrigramMatrix acc t cmap ctI ic) m) := by
    induction texts with
    | nil => intro m hb; exact hb
    | cons t texts ih =>
      intro m hb
      exact ih (trainTrigramMatrix m t cmap ctI ic) (cellBounded_train m t cmap ctI ic hb)
  exact h (createEmptyTrigramMatrix n) (cellBounded_empty n)

lemma scoreLoop_eq (m : TrigramCounts) (cmap : CharMap)
    (ws : List (Char × Char × Char)) :
    scoreLoop m cmap ws =
      (((ws.filterMap (mapTriple cmap)).map (windowProb m)).sum,
        (ws.filterMap (mapTriple cmap)).length) := by
  induction ws with
  | nil => simp [scoreLoop]
  | cons w ws ih =>
    rw [List.filterMap_cons]
    cases h : mapTriple cmap w with
    | none => simp [scoreLoop, h, ih]
    | some t =>
      simp only [scoreLoop, h, ih, List.map_cons, List.sum_cons, List.length_cons,
        Prod.mk.injEq]
      exact ⟨by ring, trivial⟩

lemma runText_eq_mean (m : TrigramCounts) (text : List Char) (cmap : CharMap)
    (ic : Bool) :
    runTextThroughTrigramMatrix m text cmap ic = meanWindowScore m text cmap ic := by
  simp only [runTextThroughTrigramMatrix, meanWindowScore, validTriples, scoreLoop_eq]
  by_cases h : (windows3 (cleanText ic text)).filterMap (mapTriple cmap) = []
  · simp [h]
  · have hlen : ((windows3 (cleanText ic text)).filterMap (mapTriple cmap)).length ≠ 0 := by
      simpa [List.length_eq_zero] using h
    simp [h, hlen]

lemma windowProb_nonneg (m : TrigramCounts) (t : ℕ × ℕ × ℕ) :
    0 ≤ windowProb m t := by
  unfold windowProb
  split
  · exact le_refl 0
  · positivity

lemma windowProb_le_one (m : TrigramCounts) (hb : CellBounded m) (t : ℕ × ℕ × ℕ) :
    windowProb m t ≤ 1 := by
  unfold windowProb
  split
  · exact zero_le_one
  · rename_i h
    have hpos : (0 : ℚ) < ((m t.1).layerTotal : ℚ) := by
      exact_mod_cast Nat.pos_of_ne_zero h
    rw [div_le_one hpos]
    exact_mod_cast hb t.1 t.2.1 t.2.2

lemma mean_bounds (m : TrigramCounts) (hb : CellBounded m) (ts : List (ℕ × ℕ × ℕ)) :
    0 ≤ (ts.map (windowProb m)).sum / (ts.length : ℚ) ∧
      (ts.map (windowProb m)).sum / (ts.length : ℚ) ≤ 1 := by
  rcases List.eq_nil_or_concat ts with h | _
  · simp [h]
  · have hsum0 : 0 ≤ (ts.map (windowProb m)).sum :=
      List.sum_nonneg (by
        intro x hx
        obtain ⟨t, _, rfl⟩ := List.mem_map.mp hx
        exact windowProb_nonneg m t)
    have hlen0 : (0 : ℚ) ≤ (ts.length : ℚ) := by positivity
    constructor
    · positivity
    · have hsum1 := List.sum_le_card_nsmul (ts.map (windowProb m)) 1 (by
        intro x hx
        obtain ⟨t, _, rfl⟩ := List.mem_map.mp hx
        exact windowProb_le_one m hb t)
      have hsum1' : (ts.map (windowProb m)).sum ≤ (ts.length : ℚ) := by
        simpa [nsmul_eq_mul] using hsum1
      exact div_le_one_of_le₀ hsum1' hlen0

/-- Claim C3: the score of a text is the arithmetic mean over the valid
windows of `count / contextTotal` (a zero context total contributing zero),
it is zero when the text yields no valid window (in particular for the empty
string), and it always lies in `[0, 1]`.  The cell-bound hypothesis holds for
every matrix reachable by training (`cellBounded_trained`). -/
theorem getScore_mean_spec (s : TrigramMatrixState) (text : List Char)
    (hb : CellBounded s.trigramMatrix) :
    getScore s text = meanWindowScore s.trigramMatrix text s.charCodeMap s.ignoreCase ∧
    (validTriples s.charCodeMap (cleanText s.ignoreCase text) = [] →
      getScore s text = 0) ∧
    getScore s [] = 0 ∧
    0 ≤ getScore s text ∧ getScore s text ≤ 1 := by
  refine ⟨runText_eq_mean _ _ _ _, ?_, ?_, ?_, ?_⟩
  · intro h
    rw [getScore, runText_eq_mean]
    simp [meanWindowScore, h]
  · simp [getScore, runTextThroughTrigramMatrix, cleanText_nil, windows3, scoreLoop]
  · rw [getScore, runText_eq_mean, meanWindowScore]
    by_cases h : validTriples s.charCodeMap (cleanText s.ignoreCase text) = []
    · simp [h]
    · simp only [h, if_false]
      exact (mean_bounds s.trigramMatrix hb _).1
  · rw [getScore, runText_eq_mean, meanWindowScore]
    by_cases h : validTriples s.charCodeMap (cleanText s.ignoreCase text) = []
    · simp [h]
    · simp only [h, if_false]
      exact (mean_bounds s.trigramMatrix hb _).2

lemma mEx_cellBounded : CellBounded mEx :=
  cellBounded_train (createEmptyTrigramMatrix 3) ['a', 'b', 'c'] cmapABC [] true
    (cellBounded_empty 3)

/-- Witness for C3 at the concrete instance `sEx` and the text `"abc"`. -/
theorem getScore_mean_spec_witness :
    CellBounded sEx.trigramMatrix ∧
    (getScore sEx ['a', 'b', 'c'] =
        meanWindowScore sEx.trigramMatrix ['a', 'b', 'c'] sEx.charCodeMap sEx.ignoreCase ∧
      (validTriples sEx.charCodeMap (cleanText sEx.ignoreCase ['a', 'b', 'c']) = [] →
        getScore sEx ['a', 'b', 'c'] = 0) ∧
      getScore sEx [] = 0 ∧
      0 ≤ getScore sEx ['a', 'b', 'c'] ∧ getScore sEx ['a', 'b', 'c'] ≤ 1) :=
  ⟨mEx_cellBounded, getScore_mean_spec sEx ['a', 'b', 'c'] mEx_cellBounded⟩

lemma clean_abc : cleanText true ['a', 'b', 'c'] = ['a', 'b', 'c'] := rfl

lemma clean_cba : cleanText true ['c', 'b', 'a'] = ['c', 'b', 'a'] := rfl

lemma mEx_score_abc : runTextThroughTrigramMatrix mEx ['a', 'b', 'c'] cmapABC true = 1 := by
  simp [runTextThroughTrigramMatrix, scoreLoop, windows3, clean_abc, mapTriple, cmapABC,
    windowProb, mEx, trainTrigramMatrix, trainStep, bumpTrigram, createEmptyTrigramMatrix]

lemma mEx_score_cba : runTextThroughTrigramMatrix mEx ['c', 'b', 'a'] cmapABC true = 0 := by
  simp [runTextThroughTrigramMatrix, scoreLoop, windows3, clean_cba, mapTriple, cmapABC,
    windowProb, mEx, trainTrigramMatrix, trainStep, bumpTrigram, createEmptyTrigramMatrix]

lemma mEx_goodAvg : averageScore mEx [['a', 'b', 'c']] cmapABC true = 1 := by
  simp [averageScore, mEx_score_abc]

lemma mEx_badAvg : averageScore mEx [['c', 'b', 'a']] cmapABC true = 0 := by
  simp [averageScore, mEx_score_cba]

lemma mEx_cutoffs :
    getTrigramCutoffScores mEx [['a', 'b', 'c']] [['c', 'b', 'a']] cmapABC true
      = { strict := 3 / 4, avg := 1 / 2, loose := 1 / 4 } := by
  simp [getTrigramCutoffScores, mEx_goodAvg, mEx_badAvg]
  norm_num

/-- Claim C1, as stated, is false on a normal (non-degenerate) calibration
run: with `goodAvg = 1 ≥ badAvg = 0` the modelled calibrator produces
`strict = 3/4 > avg = 1/2`, so `strict ≤ avg ≤ loose` fails. -/
theorem cutoff_order_counterexample :
    averageScore mEx [['c', 'b', 'a']] cmapABC true ≤
      averageScore mEx [['a', 'b', 'c']] cmapABC true ∧
    ¬ ((getTrigramCutoffScores mEx [['a', 'b', 'c']] [['c', 'b', 'a']] cmapABC true).strict ≤
        (getTrigramCutoffScores mEx [['a', 'b', 'c']] [['c', 'b', 'a']] cmapABC true).avg) := by
  rw [mEx_goodAvg, mEx_badAvg, mEx_cutoffs]
  norm_num

/-- Claim C1, amended: on every calibration run with both sample sets
non-empty and `badAvg ≤ goodAvg`, the cutoff triple satisfies
`loose ≤ avg ≤ strict`, with `loose` between `badAvg` and `avg` (closer to
`badAvg`) and `strict` between `avg` and `goodAvg` (closer to `goodAvg`). -/
theorem cutoffs_ordered_normal (m : TrigramCounts) (good bad : List (List Char))
    (cmap : CharMap) (ic : Bool) (hg : good ≠ []) (hbad : bad ≠ [])
    (hn : averageScore m bad cmap ic ≤ averageScore m good cmap ic) :
    averageScore m bad cmap ic ≤ (getTrigramCutoffScores m good bad cmap ic).loose ∧
    (getTrigramCutoffScores m good bad cmap ic).loose ≤
      (getTrigramCutoffScores m good bad cmap ic).avg ∧
    (getTrigramCutoffScores m good bad cmap ic).avg ≤
      (getTrigramCutoffScores m good bad cmap ic).strict ∧
    (getTrigramCutoffScores m good bad cmap ic).strict ≤
      averageScore m good cmap ic := by
  have hgb : ¬ (good = [] ∨ bad = []) := by simp [hg, hbad]
  simp only [getTrigramCutoffScores, if_neg hgb]
  refine ⟨?_, ?_, ?_, ?_⟩ <;> linarith

/-- Witness for the amended C1 at the concrete matrix `mEx` with good sample
`"abc"` (average score `1`) and bad sample `"cba"` (average score `0`). -/
theorem cutoffs_ordered_normal_witness :
    ([['a', 'b', 'c']] : List (List Char)) ≠ [] ∧
    ([['c', 'b', 'a']] : List (List Char)) ≠ [] ∧
    averageScore mEx [['c', 'b', 'a']] cmapABC true ≤
      averageScore mEx [['a', 'b', 'c']] cmapABC true ∧
    (averageScore mEx [['c', 'b', 'a']] cmapABC true ≤
        (getTrigramCutoffScores mEx [['a', 'b', 'c']] [['c', 'b', 'a']] cmapABC true).loose ∧
      (getTrigramCutoffScores mEx [['a', 'b', 'c']] [['c', 'b', 'a']] cmapABC true).loose ≤
        (getTrigramCutoffScores mEx [['a', 'b', 'c']] [['c', 'b', 'a']] cmapABC true).avg ∧
      (getTrigramCutoffScores mEx [['a', 'b', 'c']] [['c', 'b', 'a']] cmapABC true).avg ≤
        (getTrigramCutoffScores mEx [['a', 'b', 'c']] [['c', 'b', 'a']] cmapABC true).strict ∧
      (getTrigramCutoffScores mEx [['a', 'b', 'c']] [['c', 'b', 'a']] cmapABC true).strict ≤
        averageScore mEx [['a', 'b', 'c']] cmapABC true) :=
  ⟨by simp, by simp,
   by rw [mEx_goodAvg, mEx_badAvg]; norm_num,
   cutoffs_ordered_normal mEx [['a', 'b', 'c']] [['c', 'b', 'a']] cmapABC true
     (by simp) (by simp)
     (by rw [mEx_goodAvg, mEx_badAvg]; norm_num)⟩

/-- Claim C4: `isGibberish` returns true exactly when the score is strictly
below the cutoff selected by the strictness level, and a score exactly equal
to the selected cutoff is classified as legitimate (false). -/
theorem isGibberish_strict_less (s : TrigramMatrixState) (text : List Char)
    (strictness : CutoffScoreStrictness) :
    (isGibberish s text strictness = true ↔
      getScore s text < selectCutoff s.cutoffScores strictness) ∧
    (getScore s text = selectCutoff s.cutoffScores strictness →
      isGibberish s text strictness = false) := by
  constructor
  · simp [isGibberish]
  · intro h
    simp [isGibberish, h]

/-- Witness for C4 at the concrete instance `sZero` (empty matrix, all-zero
cutoffs): the empty string scores exactly the `Avg` cutoff and is classified
legitimate. -/
theorem isGibberish_strict_less_witness :
    getScore sZero [] = selectCutoff sZero.cutoffScores CutoffScoreStrictness.Avg ∧
    isGibberish sZero [] CutoffScoreStrictness.Avg = false :=
  ⟨by simp [getScore, runTextThroughTrigramMatrix, cleanText_nil, windows3, scoreLoop,
      selectCutoff, sZero],
   (isGibberish_strict_less sZero [] CutoffScoreStrictness.Avg).2
     (by simp [getScore, runTextThroughTrigramMatrix, cleanText_nil, windows3, scoreLoop,
       selectCutoff, sZero])⟩

/-- Claim C5, as stated, is false: recalibrating `sEx` (stored cutoffs
`⟨1, 1, 1⟩`) with an empty good-sample set overwrites the stored triple
instead of retaining it. -/
theorem recalibrate_empty_retains_counterexample :
    (recalibrateCutoffScores sEx (some []) (some [['a']])).cutoffScores ≠
      sEx.cutoffScores := by
  simp [recalibrateCutoffScores, getTrigramCutoffScores, sEx]

/-- Claim C5, amended: recalibration with an empty good- or bad-sample set
does not fault — the modelled calibrator returns the fixed triple
`⟨0, 0, 0⟩` — but the previously stored cutoff triple is NOT retained: the
call sites pass the calibrator no previous cutoffs and the store is
unconditionally overwritten, so the stored triple changes whenever it
differs from that fixed result. -/
theorem recalibrate_empty_overwrites (s : TrigramMatrixState)
    (g b : List (List Char)) (h : g = [] ∨ b = [])
    (hne : s.cutoffScores ≠ { strict := 0, avg := 0, loose := 0 }) :
    (recalibrateCutoffScores s (some g) (some b)).cutoffScores =
      { strict := 0, avg := 0, loose := 0 } ∧
    (recalibrateCutoffScores s (some g) (some b)).cutoffScores ≠ s.cutoffScores := by
  have hcal : (recalibrateCutoffScores s (some g) (some b)).cutoffScores =
      { strict := 0, avg := 0, loose := 0 } := by
    simp [recalibrateCutoffScores, getTrigramCutoffScores, h]
  exact ⟨hcal, by rw [hcal]; exact fun hc => hne hc.symm⟩

/-- Witness for the amended C5 at the concrete instance `sEx` with an empty
good-sample set. -/
theorem recalibrate_empty_overwrites_witness :
    (([] : List (List Char)) = [] ∨ ([['a']] : List (List Char)) = []) ∧
    sEx.cutoffScores ≠ { strict := 0, avg := 0, loose := 0 } ∧
    ((recalibrateCutoffScores sEx (some []) (some [['a']])).cutoffScores =
        { strict := 0, avg := 0, loose := 0 } ∧
      (recalibrateCutoffScores sEx (some []) (some [['a']])).cutoffScores ≠
        sEx.cutoffScores) :=
  ⟨Or.inl rfl, by simp [sEx],
   recalibrate_empty_overwrites sEx [] [['a']] (Or.inl rfl) (by simp [sEx])⟩

lemma clean_the_cat :
    cleanText true ['t', 'h', 'e', ' ', 'c', 'a', 't'] = ['t', 'h', 'e', ' ', 'c', 'a', 't'] := rfl

lemma clean_a_dog : cleanText true ['a', ' ', 'd', 'o', 'g'] = ['a', ' ', 'd', 'o', 'g'] := rfl

lemma clean_zqxw : cleanText true ['z', 'q', 'x', 'w'] = ['z', 'q', 'x', 'w'] := rfl

lemma clean_vkj : cleanText true ['v', 'k', 'j'] = ['v', 'k', 'j'] := rfl

lemma mEx_default_cutoffs :
    getTrigramCutoffScores mEx DEFAULT_GOOD_SAMPLES DEFAULT_BAD_SAMPLES cmapABC true
      = { strict := 0, avg := 0, loose := 0 } := by
  simp [getTrigramCutoffScores, DEFAULT_GOOD_SAMPLES, DEFAULT_BAD_SAMPLES, averageScore,
    runTextThroughTrigramMatrix, clean_the_cat, clean_a_dog, clean_zqxw, clean_vkj,
    windows3, scoreLoop, mapTriple, cmapABC]

/-- Claim C9: `recalibrateCutoffScores` with both sample-set arguments
omitted recalibrates against the hard-coded default sample arrays, not
against the sets saved on the instance — exhibited by an instance whose
saved sets give different cutoffs than the defaults. -/
theorem recalibrate_omitted_uses_defaults :
    (∀ s, recalibrateCutoffScores s none none =
      ({ s with
          cutoffScores := getTrigramCutoffScores s.trigramMatrix DEFAULT_GOOD_SAMPLES
                            DEFAULT_BAD_SAMPLES s.charCodeMap s.ignoreCase } :
        TrigramMatrixState)) ∧
    (∃ s, (recalibrateCutoffScores s none none).cutoffScores ≠
      (recalibrateCutoffScores s (some s.savedGoodSamples)
        (some s.savedBadSamples)).cutoffScores) := by
  constructor
  · intro s
    rfl
  · refine ⟨sEx, ?_⟩
    have h1 : (recalibrateCutoffScores sEx none none).cutoffScores =
        { strict := 0, avg := 0, loose := 0 } := by
      show getTrigramCutoffScores mEx DEFAULT_GOOD_SAMPLES DEFAULT_BAD_SAMPLES cmapABC true
        = { strict := 0, avg := 0, loose := 0 }
      exact mEx_default_cutoffs
    have h2 : (recalibrateCutoffScores sEx (some sEx.savedGoodSamples)
        (some sEx.savedBadSamples)).cutoffScores =
        { strict := 3 / 4, avg := 1 / 2, loose := 1 / 4 } := by
      show getTrigramCutoffScores mEx [['a', 'b', 'c']] [['c', 'b', 'a']] cmapABC true
        = { strict := 3 / 4, avg := 1 / 2, loose := 1 / 4 }
      exact mEx_cutoffs
    rw [h1, h2]
    simp

lemma wordLoop_eq (s : TrigramMatrixState) (strictness : CutoffScoreStrictness)
    (tokens : List (List Char)) :
    wordLoop s strictness tokens =
      (tokens.map (fun w => ({ word := w, score := getScore s w } : WordScore)),
        (tokens.filter (fun w => isGibberish s w strictness)).map
          (fun w => ({ word := w, score := getScore s w } : WordScore))) := by
  induction tokens with
  | nil => simp [wordLoop]
  | cons w ws ih =>
    simp only [wordLoop, ih, List.map_cons, List.filter_cons]
    by_cases h : isGibberish s w strictness <;> simp [h]

lemma map_bundle_filter (s : TrigramMatrixState) (strictness : CutoffScoreStrictness)
    (tokens : List (List Char)) :
    (tokens.filter (fun w => isGibberish s w strictness)).map
        (fun w => ({ word := w, score := getScore s w } : WordScore)) =
      (tokens.map (fun w => ({ word := w, score := getScore s w } : WordScore))).filter
        (fun b => isGibberish s b.word strictness) := by
  induction tokens with
  | nil => rfl
  | cons w ws ih =>
    simp only [List.map_cons, List.filter_cons]
    by_cases h : isGibberish s w strictness <;> simp [h, ih]

/-- Claim C10: the word-by-word analysis has `numWords` equal to the length
of `words`, `numGibberishWords` equal to the length of `gibberishWords`,
`gibberishWords` exactly the sub-list of `words` classified gibberish at the
given strictness (defaulting to `Avg`), every entry pairing a token with its
score, and `cutoffs` equal to the stored cutoff triple. -/
theorem wordAnalysis_spec (s : TrigramMatrixState) (text : List Char)
    (strictness : Option CutoffScoreStrictness) :
    (getWordByWordAnalysis s text strictness).numWords =
      (getWordByWordAnalysis s text strictness).words.length ∧
    (getWordByWordAnalysis s text strictness).numGibberishWords =
      (getWordByWordAnalysis s text strictness).gibberishWords.length ∧
    (getWordByWordAnalysis s text strictness).gibberishWords =
      (getWordByWordAnalysis s text strictness).words.filter
        (fun b => isGibberish s b.word (strictness.getD CutoffScoreStrictness.Avg)) ∧
    (getWordByWordAnalysis s text strictness).words =
      (cleanAndExtractWordsFromTextToScore text s.ignoreCase).map
        (fun w => { word := w, score := getScore s w }) ∧
    (getWordByWordAnalysis s text strictness).cutoffs = s.cutoffScores := by
  simp only [getWordByWordAnalysis, wordLoop_eq]
  refine ⟨by simp, ?_, ?_, ?_, ?_⟩ <;>
    first
    | trivial
    | exact map_bundle_filter s _ _

lemma applyOp_fields (s : TrigramMatrixState) (op : MatrixOp) :
    (applyOp s op).savedGoodSamples = s.savedGoodSamples ∧
    (applyOp s op).savedBadSamples = s.savedBadSamples ∧
    (applyOp s op).charCodeMap = s.charCodeMap ∧
    (applyOp s op).charsToInclude = s.charsToInclude ∧
    (applyOp s op).ignoreCase = s.ignoreCase := by
  cases op <;> simp [applyOp, train, recalibrateCutoffScores]

lemma runOps_fields (ops : List MatrixOp) : ∀ s : TrigramMatrixState,
    (runOps s ops).savedGoodSamples = s.savedGoodSamples ∧
    (runOps s ops).savedBadSamples = s.savedBadSamples ∧
    (runOps s ops).charCodeMap = s.charCodeMap ∧
    (runOps s ops).charsToInclude = s.charsToInclude ∧
    (runOps s ops).ignoreCase = s.ignoreCase := by
  induction ops with
  | nil => intro s; exact ⟨rfl, rfl, rfl, rfl, rfl⟩
  | cons op ops ih =>
    intro s
    have h := applyOp_fields s op
    have h2 := ih (applyOp s op)
    simp only [runOps, List.foldl_cons] at h2 ⊢
    exact ⟨h2.1.trans h.1, h2.2.1.trans h.2.1, h2.2.2.1.trans h.2.2.1,
      h2.2.2.2.1.trans h.2.2.2.1, h2.2.2.2.2.trans h.2.2.2.2⟩

/-- Claim C2, amended: after any operation trace from construction, `train`
recalibrates against the sample sets saved at construction — the instance's
`savedGoodSamples`/`savedBadSamples`, which no later operation (including
`recalibrateCutoffScores` with freshly supplied sets) ever updates — not
against the most recently supplied sets. -/
theorem train_recalibrates_with_saved (init : List Char)
    (g0 b0 : List (List Char)) (ic : Bool) (add : List Char)
    (ops : List MatrixOp) (t : List Char) :
    (train (runOps (constructTrigramMatrix init g0 b0 ic add) ops) t).cutoffScores =
      getTrigramCutoffScores
        (trainTrigramMatrix
          (runOps (constructTrigramMatrix init g0 b0 ic add) ops).trigramMatrix t
          (runOps (constructTrigramMatrix init g0 b0 ic add) ops).charCodeMap
          (runOps (constructTrigramMatrix init g0 b0 ic add) ops).charsToInclude
          (runOps (constructTrigramMatrix init g0 b0 ic add) ops).ignoreCase)
        g0 b0
        (runOps (constructTrigramMatrix init g0 b0 ic add) ops).charCodeMap
        (runOps (constructTrigramMatrix init g0 b0 ic add) ops).ignoreCase ∧
    (runOps (constructTrigramMatrix init g0 b0 ic add) ops).savedGoodSamples = g0 ∧
    (runOps (constructTrigramMatrix init g0 b0 ic add) ops).savedBadSamples = b0 := by
  have hf := runOps_fields ops (constructTrigramMatrix init g0 b0 ic add)
  have hg : (runOps (constructTrigramMatrix init g0 b0 ic add) ops).savedGoodSamples = g0 :=
    hf.1
  have hb : (runOps (constructTrigramMatrix init g0 b0 ic add) ops).savedBadSamples = b0 :=
    hf.2.1
  refine ⟨?_, hg, hb⟩
  simp only [train, recalibrateCutoffScores, Option.getD_some]
  rw [hg, hb]

lemma clean_ba : cleanText true ['b', 'a'] = ['b', 'a'] := rfl

lemma sTr_ignoreCase : sTr.ignoreCase = true := rfl

lemma sTr_mapTriple : mapTriple sTr.charCodeMap ('a', 'b', 'c') = some (0, 1, 2) := rfl

lemma sTr_layerTotal : (sTr.trigramMatrix 0).layerTotal = 2 := rfl

lemma sTr_count : (sTr.trigramMatrix 0).countLayer 1 2 = 2 := rfl

lemma sTr_score_abc :
    runTextThroughTrigramMatrix sTr.trigramMatrix ['a', 'b', 'c'] sTr.charCodeMap true = 1 := by
  simp [runTextThroughTrigramMatrix, clean_abc, windows3, scoreLoop, sTr_mapTriple,
    windowProb, sTr_layerTotal, sTr_count]

lemma sTr_score_ba :
    runTextThroughTrigramMatrix sTr.trigramMatrix ['b', 'a'] sTr.charCodeMap true = 0 := by
  simp [runTextThroughTrigramMatrix, clean_ba, windows3, scoreLoop]

lemma sTr_cutoffs_saved :
    sTr.cutoffScores =
      getTrigramCutoffScores sTr.trigramMatrix [['a', 'b', 'c']] [['b', 'a']]
        sTr.charCodeMap true := rfl

lemma sTr_cutoffs_value :
    getTrigramCutoffScores sTr.trigramMatrix [['a', 'b', 'c']] [['b', 'a']]
        sTr.charCodeMap true
      = { strict := 3 / 4, avg := 1 / 2, loose := 1 / 4 } := by
  simp [getTrigramCutoffScores, averageScore, sTr_score_abc, sTr_score_ba]
  norm_num

lemma sTr_cutoffs_supplied_value :
    getTrigramCutoffScores sTr.trigramMatrix [['b', 'a']] [['a', 'b', 'c']]
        sTr.charCodeMap true
      = { strict := 1 / 4, avg := 1 / 2, loose := 3 / 4 } := by
  simp [getTrigramCutoffScores, averageScore, sTr_score_abc, sTr_score_ba]
  norm_num

/-- Claim C2, as stated, is false: on the instance constructed with samples
`(["abc"], ["ba"])` and then given the swapped sets `(["ba"], ["abc"])`
through `recalibrateCutoffScores`, a subsequent `train("abc")` stores the
cutoffs computed from the construction-time sets (`⟨3/4, 1/2, 1/4⟩`), not the
result of recalibrating against the most recently supplied sets
(`⟨1/4, 1/2, 3/4⟩`). -/
theorem train_last_supplied_counterexample :
    sTr = runOps sCon [MatrixOp.recalibrateOp [['b', 'a']] [['a', 'b', 'c']],
      MatrixOp.trainOp ['a', 'b', 'c']] ∧
    lastSupplied [['a', 'b', 'c']] [['b', 'a']]
        [MatrixOp.recalibrateOp [['b', 'a']] [['a', 'b', 'c']],
          MatrixOp.trainOp ['a', 'b', 'c']]
      = ([['b', 'a']], [['a', 'b', 'c']]) ∧
    sTr.cutoffScores ≠
      getTrigramCutoffScores sTr.trigramMatrix [['b', 'a']] [['a', 'b', 'c']]
        sTr.charCodeMap sTr.ignoreCase := by
  refine ⟨rfl, rfl, ?_⟩
  rw [sTr_ignoreCase, sTr_cutoffs_saved, sTr_cutoffs_value, sTr_cutoffs_supplied_value]
  simp [CutoffScore.mk.injEq]
  norm_num
